import Mathlib

/-!
A shallow embedding of `src/app.py` (a five-stage pull-request review pipeline
built on a state graph) and proofs about it.

The two external collaborators (the GitHub content fetcher reached through
`requests.get`, and the OpenAI text-generation client) are modelled as oracles
supplied as parameters; the pipeline code itself is translated function by
function.  Python runtime errors (IndexError on a negative subscript, KeyError
on a dict subscript, TypeError on `None + str`) are modelled with `Except`.
-/

set_option autoImplicit false

namespace JamesReviews

/-- Python runtime errors that the embedded code can raise. -/
inductive PyErr where
  | indexError
  | keyError
  | typeError
  | noFuel
  deriving Repr, DecidableEq

/-- Python `s.rstrip('/')`: drop every trailing `'/'`.  (Defined on the
character list so that it computes by structural recursion.) -/
def pyRstripSlash (s : String) : String :=
  ⟨(s.data.reverse.dropWhile (· == '/')).reverse⟩

/-- The worker for Python `s.split('/')`: cut at every `'/'`, keeping empty
pieces (so `''.split('/') == ['']` and `'/a/'.split('/') == ['', 'a', '']`). -/
def pySplitSlashAux : List Char → List Char → List String
  | [], acc => [⟨acc.reverse⟩]
  | ch :: rest, acc =>
    if ch = '/' then ⟨acc.reverse⟩ :: pySplitSlashAux rest []
    else pySplitSlashAux rest (ch :: acc)

/-- Python `s.split('/')`. -/
def pySplitSlash (s : String) : List String :=
  pySplitSlashAux s.data []

/-- The worker for Python `needle in haystack`: does `n` occur as a
contiguous sublist of `l`? -/
def pyContainsAux (n : List Char) : List Char → Bool
  | [] => n.isEmpty
  | ch :: rest => n.isPrefixOf (ch :: rest) || pyContainsAux n rest

/-- Python `needle in haystack` for strings: substring containment
(the empty string is contained in everything). -/
def pyContains (haystack needle : String) : Bool :=
  pyContainsAux needle.data haystack.data

/-- Python `s.endswith(suffix)`. -/
def pyEndsWith (s suffix : String) : Bool :=
  suffix.data.isSuffixOf s.data

/-- The whitespace characters Python `str.strip()` removes (the ASCII ones;
the further Unicode whitespace does not occur in the embedded literals). -/
def pyIsSpace (ch : Char) : Bool :=
  ch == ' ' || ch == '\t' || ch == '\n' || ch == '\r' || ch == '\x0b' || ch == '\x0c'

/-- Python `s.strip()`: drop whitespace from both ends. -/
def pyStrip (s : String) : String :=
  ⟨((s.data.dropWhile pyIsSpace).reverse.dropWhile pyIsSpace).reverse⟩

/-- Python `xs[-k]` for `k ≥ 1` on a list of strings: the `k`-th element from
the end, an `IndexError` when the list has fewer than `k` elements. -/
def pyNegIdx (xs : List String) (k : Nat) : Except PyErr String :=
  if k ≤ xs.length then
    match xs[xs.length - k]? with
    | some v => .ok v
    | none => .error .indexError
  else .error .indexError

/-! ## Data model (`FileDiff`, `PRInfo`, `PRState` of `app.py`)

`PRState` is a Python dict threaded through the graph, so it is modelled as an
insertion-ordered association list from field name to value, exactly the keys
the script puts there. -/

/-- Structure `FileDiff` (`app.py` lines 37-39): one changed file's patch and content. -/
structure FileDiff where
  patch : String
  content : String
  deriving Repr, DecidableEq

/-- Structure `PRInfo` (`app.py` lines 42-44): description plus diffs keyed by filename. -/
structure PRInfo where
  description : String
  diffs : List (String × FileDiff)
  deriving Repr, DecidableEq

/-- A value stored in the `PRState` dict: the script stores strings and, for
`pr_info`, a nested dict. -/
inductive Val where
  | str (s : String)
  | info (p : PRInfo)
  deriving Repr, DecidableEq

/-- The pipeline state: a Python dict from field name to value. -/
abbrev StateDict := List (String × Val)

/-- Python `d[k]` on the state dict: `KeyError` when the key is absent. -/
def getItem (d : StateDict) (k : String) : Except PyErr Val :=
  match d.lookup k with
  | some v => .ok v
  | none => .error .keyError

/-- A `Val` used where Python expects a `str` (e.g. `state['pr_url'].rstrip`):
anything else would raise at runtime. -/
def asStr (v : Val) : Except PyErr String :=
  match v with
  | .str s => .ok s
  | _ => .error .typeError

/-- Python `d[k] = v` on a dict: replace the binding in place when the key
exists, append it otherwise. -/
def dictUpdate {β : Type} (d : List (String × β)) (k : String) (v : β) :
    List (String × β) :=
  if (d.lookup k).isSome then
    d.map (fun p => if p.1 = k then (k, v) else p)
  else
    d ++ [(k, v)]

/-! ## External collaborators as oracles -/

/-- One element of the GitHub `/files` listing, together with what the two
further external steps return for it: the bytes fetched from its `raw_url`
(already utf-8 decoded) and the MIME type `magic` detects on those bytes. -/
structure FileEntry where
  filename : String
  /-- Python `file.get('patch', '')`: `none` models an absent key. -/
  patch : Option String
  raw_url : String
  content : String
  contentType : String
  deriving Repr, DecidableEq

/-- The content-fetcher collaborator's responses for one run:
the PR metadata response (`body` and `_links.self.href`, `none` modelling an
absent field) and the changed-file listing. -/
structure FetchOracle where
  /-- Python `pr_data.get("body", "")` yields `""` only when the key is absent. -/
  body : Option String
  /-- Response field `_links.self.href` of the PR metadata. -/
  selfHref : Option String
  files : List FileEntry

/-- A text-generation request as the stage functions issue it: the fixed
system instruction, the state values interpolated into the stage's prompt
template (the surrounding fixed template text is identified by the stage
tag), and the fixed sampling parameters. -/
inductive PPart where
  | val (x : Val)
  | whole (s : StateDict)
  deriving DecidableEq

/-- One `client.chat.completions.create` call. `tempTenths` is the sampling
temperature in tenths (0.6 ↦ 6, 0.7 ↦ 7). -/
structure LLMReq where
  stage : String
  system : String
  parts : List PPart
  maxTokens : Nat
  tempTenths : Nat
  deriving DecidableEq

/-- The text-generation collaborator: each call either returns the response
text or raises. -/
def LLMOracle : Type := LLMReq → Except String String

/-! ## Gather stage (`gather_pr_info`, `app.py` lines 56-114) -/

/-- Lines 58-61: split the trailing-slash-stripped URL on `'/'` and take the
4th-from-last, 3rd-from-last and last pieces as owner, repo name and PR
number. -/
def extractRef (pr_url : String) : Except PyErr (String × String × String) := do
  let url_parts := pySplitSlash (pyRstripSlash pr_url)
  let repo_owner ← pyNegIdx url_parts 4
  let repo_name ← pyNegIdx url_parts 3
  let pr_number ← pyNegIdx url_parts 1
  .ok (repo_owner, repo_name, pr_number)

/-- Line 99: a file is skipped when its MIME type contains neither `"text"`
nor `"json"`, or its name ends in `".excalidraw"` (Python `and` binds tighter
than `or`). -/
def skipFile (f : FileEntry) : Bool :=
  (!pyContains f.contentType "text" && !pyContains f.contentType "json")
    || pyEndsWith f.filename ".excalidraw"

/-- One iteration of the loop over the file listing (lines 86-106): a
skipped file adds nothing, otherwise `diffs[filename] = {patch, content}`. -/
def diffStep (diffs : List (String × FileDiff)) (f : FileEntry) :
    List (String × FileDiff) :=
  if skipFile f then diffs
  else dictUpdate diffs f.filename ⟨f.patch.getD "", f.content⟩

/-- Lines 85-106: the loop over the file listing, building the `diffs` dict.
Every file gets its content downloaded (the MIME check happens after the
download); skipped files add nothing. -/
def buildDiffs (files : List FileEntry) : List (String × FileDiff) :=
  files.foldl diffStep []

/-- Function `gather_pr_info` (lines 56-114).  Returns the partial state update
together with the list of URLs requested from the content fetcher, in order:
the PR endpoint, the `/files` endpoint, then one `raw_url` per listed file.
A URL with fewer than four segments raises `IndexError` before any network
call; a missing `_links.self.href` raises `TypeError` (`None + "/files"`)
after the first call. -/
def gather_pr_info (fo : FetchOracle) (state : StateDict) :
    Except PyErr (List (String × Val) × List String) := do
  let urlV ← getItem state "pr_url"
  let url ← asStr urlV
  let (repo_owner, repo_name, pr_number) ← extractRef url
  let api_url := "https://api.github.com/repos/" ++ repo_owner ++ "/"
    ++ repo_name ++ "/pulls/" ++ pr_number
  -- first network call: the PR endpoint; its JSON is `fo.body`/`fo.selfHref`
  let pr_description := fo.body.getD ""
  match fo.selfHref with
  | none => .error .typeError
  | some href =>
    let files_url := href ++ "/files"
    -- second network call: the `/files` endpoint, yielding `fo.files`;
    -- then one call per file to its `raw_url`
    let calls := api_url :: files_url :: fo.files.map (·.raw_url)
    let diffs := buildDiffs fo.files
    let pr_info : PRInfo := ⟨pr_description, diffs⟩
    .ok ([("pr_info", .info pr_info)], calls)

/-! ## Analysis stages (`app.py` lines 117-223)

Each stage builds its prompt from the state (outside the `try` block, so a
`KeyError` there is fatal), issues one generation call inside
`try/except Exception`, and on failure substitutes the fixed placeholder.  The
prompt templates are long fixed strings; a request records which state values
the template interpolates, tagged by stage. -/

/-- The placeholder every stage substitutes when its generation call raises
(lines 140, 167, 194, 220). -/
def placeholder : String := "Error generating context."

/-- Model of `try: reply = create(...).choices[0].message.content.strip()
except Exception: reply = "Error generating context."`. -/
def tryLLM (lo : LLMOracle) (req : LLMReq) : String :=
  match lo req with
  | .ok t => pyStrip t
  | .error _ => placeholder

/-- Generation call of `contextualize_info` (lines 119-133): the prompt
interpolates `json.dumps(state['pr_info'], indent=2)`. -/
def contextReq (pr_info : Val) : LLMReq :=
  { stage := "contextualize_info"
    system := "You are an expert software engineer reviewing a pull request."
    parts := [.val pr_info]
    maxTokens := 4095
    tempTenths := 6 }

/-- Stage `contextualize_info` (lines 117-143): store the (trimmed or placeholder)
reply under `"context"`. -/
def contextualize_info (lo : LLMOracle) (state : StateDict) :
    Except PyErr (List (String × Val) × List String) := do
  let pr_info ← getItem state "pr_info"
  let reply := tryLLM lo (contextReq pr_info)
  .ok ([("context", .str reply)], [])

/-- Generation call of `extract_features` (lines 148-160): the prompt
interpolates `json.dumps(state['pr_info'], indent=2)` and `state['context']`. -/
def featuresReq (pr_info context : Val) : LLMReq :=
  { stage := "extract_features"
    system := "You are an expert software engineer reviewing a pull request."
    parts := [.val pr_info, .val context]
    maxTokens := 4095
    tempTenths := 6 }

/-- Stage `extract_features` (lines 146-170): store the reply under `"features"`. -/
def extract_features (lo : LLMOracle) (state : StateDict) :
    Except PyErr (List (String × Val) × List String) := do
  let pr_info ← getItem state "pr_info"
  let context ← getItem state "context"
  let reply := tryLLM lo (featuresReq pr_info context)
  .ok ([("features", .str reply)], [])

/-- Generation call of `create_expert_checklist` (lines 175-187): the prompt
interpolates `state['pr_info']`, `state['context']` and `state['features']`. -/
def checklistReq (pr_info context features : Val) : LLMReq :=
  { stage := "create_expert_checklist"
    system := "You are an expert AI system well versed in software engineer. You are currently reviewing a pull request."
    parts := [.val pr_info, .val context, .val features]
    maxTokens := 4095
    tempTenths := 6 }

/-- Stage `create_expert_checklist` (lines 173-197): store the reply under
`"team_review"`. -/
def create_expert_checklist (lo : LLMOracle) (state : StateDict) :
    Except PyErr (List (String × Val) × List String) := do
  let pr_info ← getItem state "pr_info"
  let context ← getItem state "context"
  let features ← getItem state "features"
  let reply := tryLLM lo (checklistReq pr_info context features)
  .ok ([("team_review", .str reply)], [])

/-- Generation call of `final_review` (lines 201-213): the prompt interpolates
the whole state (`f"...{state}..."`). -/
def finalReq (state : StateDict) : LLMReq :=
  { stage := "final_review"
    system := "You are an AI entity with the goal of reducing suffering in the universe, increasing prosperity in the universe and increasing understanding in the universe."
    parts := [.whole state]
    maxTokens := 4095
    tempTenths := 7 }

/-- Stage `final_review` (lines 199-223): the reply is stored under the key
`"final report"` — with a space, not the schema's `final_report`. -/
def final_review (lo : LLMOracle) (state : StateDict) :
    Except PyErr (List (String × Val) × List String) := do
  let reply := tryLLM lo (finalReq state)
  .ok ([("final report", .str reply)], [])

/-! ## The state graph and its runner (`app.py` lines 226-257) -/

/-- A stage: the current state to a partial update plus its fetcher calls. -/
abbrev StageFn := StateDict → Except PyErr (List (String × Val) × List String)

/-- The `workflow.add_node` calls (lines 230-234). -/
def nodes (fo : FetchOracle) (lo : LLMOracle) : List (String × StageFn) :=
  [("gather_pr_info", gather_pr_info fo),
   ("contextualize_info", contextualize_info lo),
   ("extract_features", extract_features lo),
   ("create_expert_checklist", create_expert_checklist lo),
   ("final_review", final_review lo)]

/-- The `workflow.add_edge` calls (lines 237-242); `"__end__"` is `END`. -/
def edges : List (String × String) :=
  [("gather_pr_info", "contextualize_info"),
   ("contextualize_info", "extract_features"),
   ("extract_features", "create_expert_checklist"),
   ("create_expert_checklist", "final_review"),
   ("final_review", "__end__")]

/-- Line 237: `workflow.set_entry_point("gather_pr_info")`. -/
def entryPoint : String := "gather_pr_info"

/-- Modelled from the spec: the Pipeline Runner (the compiled state graph's
execution loop, which lives in the third-party graph library, not in `src/`)
"merges the returned partial update (one or more named fields) into the
running state": mapping-update semantics, replacing an existing binding in
place and appending a new one. -/
def mergeUpdate (d : StateDict) (upd : List (String × Val)) : StateDict :=
  upd.foldl (fun d p => dictUpdate d p.1 p.2) d

/-- Modelled from the spec: the Runner "invokes each of the five stages in a
fixed, non-configurable order, passing the full current state into each and
merging the returned partial update into it before invoking the next stage";
the order is read off the graph's entry point and edges.  Returns the final
state, the invocation order, and all fetcher calls; a stage's fatal fault
aborts the run.  The fuel bound only serves termination and is never reached
on this five-node graph. -/
def runFrom (fo : FetchOracle) (lo : LLMOracle) :
    Nat → String → StateDict → List String → List String →
    Except PyErr (StateDict × List String × List String)
  | 0, _, _, _, _ => .error .noFuel
  | fuel + 1, cur, state, trace, calls =>
    match (nodes fo lo).lookup cur with
    | none => .error .keyError
    | some fn =>
      match fn state with
      | .error e => .error e
      | .ok (upd, stageCalls) =>
        let state := mergeUpdate state upd
        let trace := trace ++ [cur]
        let calls := calls ++ stageCalls
        match edges.lookup cur with
        | none => .error .keyError
        | some next =>
          if next = "__end__" then .ok (state, trace, calls)
          else runFrom fo lo fuel next state trace calls

/-- The initial state of the test run (lines 248-255): note that `pr_info`
starts as the *string* `""`. -/
def initialState (pr_url : String) : StateDict :=
  [("pr_url", .str pr_url), ("pr_info", .str ""), ("context", .str ""),
   ("features", .str ""), ("team_review", .str ""), ("final_report", .str "")]

/-- Line 257: `app.invoke(initial_state)`. -/
def invoke (fo : FetchOracle) (lo : LLMOracle) (pr_url : String) :
    Except PyErr (StateDict × List String × List String) :=
  runFrom fo lo 6 entryPoint (initialState pr_url) [] []

/-! ## Output artifacts (`app.py` lines 260-269) -/

/-- A file written by `write_file`.  `result.json` holds `json.dumps(result)`;
the serialization to a JSON string is external (`json` stdlib), so the
artifact records the dumped state itself. -/
inductive Artifact where
  | jsonDump (filename : String) (state : StateDict)
  | text (filename : String) (content : String)
  deriving DecidableEq

/-- The script tail (lines 257-269): invoke the pipeline, then write
`result.json` and `final_report.md` in that order.  Returns the artifacts
written before any uncaught error, and the error if one was raised. -/
def runScript (fo : FetchOracle) (lo : LLMOracle) (pr_url : String) :
    List Artifact × Option PyErr :=
  match invoke fo lo pr_url with
  | .error e => ([], some e)
  | .ok (result, _, _) =>
    let a1 := Artifact.jsonDump "result.json" result
    match getItem result "final_report" with
    | .error e => ([a1], some e)
    | .ok v =>
      match v with
      | .str report => ([a1, .text "final_report.md" report], none)
      | _ => ([a1], some .typeError)

/-! ## Lemmas about the dict operations -/

theorem lookup_cons_self {β : Type} (k : String) (v : β) (l : List (String × β)) :
    List.lookup k ((k, v) :: l) = some v := by
  simp [List.lookup]

theorem lookup_cons_ne {β : Type} (k a : String) (v : β) (l : List (String × β))
    (h : k ≠ a) :
    List.lookup k ((a, v) :: l) = List.lookup k l := by
  simp [List.lookup, beq_eq_false_iff_ne.mpr h]

theorem lookup_replace_self {β : Type} (d : List (String × β)) (k : String) (v : β)
    (h : (d.lookup k).isSome) :
    (d.map (fun p => if p.1 = k then (k, v) else p)).lookup k = some v := by
  induction d with
  | nil => simp [List.lookup] at h
  | cons p rest ih =>
    obtain ⟨a, b⟩ := p
    by_cases hp : a = k
    · subst hp
      rw [List.map_cons, show (if (a, b).1 = a then (a, v) else (a, b)) = (a, v) from if_pos rfl]
      exact lookup_cons_self a v _
    · simp only [List.map_cons]
      rw [show (if (a, b).1 = k then (k, v) else (a, b)) = (a, b) from if_neg hp,
        lookup_cons_ne k a b _ (fun he => hp he.symm)]
      rw [lookup_cons_ne k a b rest (fun he => hp he.symm)] at h
      exact ih h

theorem lookup_replace_ne {β : Type} (d : List (String × β)) (k k' : String) (v : β)
    (h : k' ≠ k) :
    (d.map (fun p => if p.1 = k then (k, v) else p)).lookup k' = d.lookup k' := by
  induction d with
  | nil => rfl
  | cons p rest ih =>
    obtain ⟨a, b⟩ := p
    by_cases hp : a = k
    · subst hp
      rw [List.map_cons, show (if (a, b).1 = a then (a, v) else (a, b)) = (a, v) from if_pos rfl]
      rw [lookup_cons_ne k' a v _ h, lookup_cons_ne k' a b rest h]
      exact ih
    · simp only [List.map_cons]
      rw [show (if (a, b).1 = k then (k, v) else (a, b)) = (a, b) from if_neg hp]
      by_cases ha : k' = a
      · subst ha
        rw [lookup_cons_self k' b _, lookup_cons_self k' b rest]
      · rw [lookup_cons_ne k' a b _ ha, lookup_cons_ne k' a b rest ha]
        exact ih

theorem lookup_append_single_self {β : Type} (d : List (String × β)) (k : String) (v : β)
    (h : d.lookup k = none) :
    (d ++ [(k, v)]).lookup k = some v := by
  induction d with
  | nil => simp [List.lookup]
  | cons p rest ih =>
    obtain ⟨a, b⟩ := p
    by_cases ha : k = a
    · subst ha
      rw [lookup_cons_self k b rest] at h
      exact absurd h (by simp)
    · rw [lookup_cons_ne k a b rest ha] at h
      rw [List.cons_append, lookup_cons_ne k a b _ ha]
      exact ih h

theorem lookup_append_single_ne {β : Type} (d : List (String × β)) (k k' : String) (v : β)
    (h : k' ≠ k) :
    (d ++ [(k, v)]).lookup k' = d.lookup k' := by
  induction d with
  | nil => simp [List.lookup, beq_eq_false_iff_ne.mpr h]
  | cons p rest ih =>
    obtain ⟨a, b⟩ := p
    by_cases ha : k' = a
    · subst ha
      rw [List.cons_append, lookup_cons_self k' b _, lookup_cons_self k' b rest]
    · rw [List.cons_append, lookup_cons_ne k' a b _ ha, lookup_cons_ne k' a b rest ha]
      exact ih

theorem lookup_dictUpdate_self {β : Type} (d : List (String × β)) (k : String) (v : β) :
    (dictUpdate d k v).lookup k = some v := by
  unfold dictUpdate
  split
  · exact lookup_replace_self d k v (by assumption)
  · exact lookup_append_single_self d k v (by
      rename_i hs
      cases h : d.lookup k with
      | none => rfl
      | some w => rw [h] at hs; simp at hs)

theorem lookup_dictUpdate_ne {β : Type} (d : List (String × β)) (k k' : String) (v : β)
    (h : k' ≠ k) :
    (dictUpdate d k v).lookup k' = d.lookup k' := by
  unfold dictUpdate
  split
  · exact lookup_replace_ne d k k' v h
  · exact lookup_append_single_ne d k k' v h

theorem mergeUpdate_single (d : StateDict) (k : String) (v : Val) :
    mergeUpdate d [(k, v)] = dictUpdate d k v := rfl

/-! ## Lemmas about the gather-stage diffs loop -/

theorem foldl_diffStep_lookup_notmem (files : List FileEntry)
    (d : List (String × FileDiff)) (k : String)
    (hk : k ∉ files.map (·.filename)) :
    (files.foldl diffStep d).lookup k = d.lookup k := by
  induction files generalizing d with
  | nil => rfl
  | cons f rest ih =>
    simp only [List.map_cons, List.mem_cons, not_or] at hk
    rw [List.foldl_cons, ih (diffStep d f) hk.2]
    unfold diffStep
    split
    · rfl
    · exact lookup_dictUpdate_ne d f.filename k _ hk.1

theorem foldl_diffStep_lookup (files : List FileEntry) (f : FileEntry)
    (d : List (String × FileDiff)) (hf : f ∈ files)
    (hnd : (files.map (·.filename)).Nodup)
    (hd : d.lookup f.filename = none) :
    (files.foldl diffStep d).lookup f.filename
      = if skipFile f then none else some ⟨f.patch.getD "", f.content⟩ := by
  induction files generalizing d with
  | nil => cases hf
  | cons g rest ih =>
    simp only [List.map_cons, List.nodup_cons] at hnd
    rw [List.foldl_cons]
    rcases List.mem_cons.mp hf with rfl | hfr
    · rw [foldl_diffStep_lookup_notmem rest (diffStep d f) _ hnd.1]
      unfold diffStep
      split
      · exact hd
      · exact lookup_dictUpdate_self d f.filename _
    · have hne : f.filename ≠ g.filename := by
        intro he
        exact hnd.1 (he ▸ List.mem_map_of_mem (·.filename) hfr)
      refine ih (diffStep d g) hfr hnd.2 ?_
      unfold diffStep
      split
      · exact hd
      · exact (lookup_dictUpdate_ne d g.filename f.filename _ hne).trans hd

theorem buildDiffs_lookup (files : List FileEntry) (f : FileEntry)
    (hf : f ∈ files) (hnd : (files.map (·.filename)).Nodup) :
    (buildDiffs files).lookup f.filename
      = if skipFile f then none else some ⟨f.patch.getD "", f.content⟩ :=
  foldl_diffStep_lookup files f [] hf hnd rfl

/-! ## Lemmas about reference extraction and the gather stage -/

theorem pyNegIdx_reverse (xs : List String) (k : Nat) (h1 : 1 ≤ k)
    (hk : k ≤ xs.length) :
    ∃ v, pyNegIdx xs k = .ok v ∧ xs.reverse[k - 1]? = some v := by
  have hlt : xs.length - k < xs.length := by omega
  refine ⟨xs[xs.length - k], ?_, ?_⟩
  · unfold pyNegIdx
    rw [if_pos hk, List.getElem?_eq_getElem hlt]
  · rw [List.getElem?_reverse (by omega)]
    have he : xs.length - 1 - (k - 1) = xs.length - k := by omega
    rw [he, List.getElem?_eq_getElem hlt]

theorem pyNegIdx_short (xs : List String) (k : Nat) (hk : xs.length < k) :
    pyNegIdx xs k = .error .indexError := by
  unfold pyNegIdx
  rw [if_neg (by omega)]

theorem extractRef_ok (url : String)
    (h4 : 4 ≤ (pySplitSlash (pyRstripSlash url)).length) :
    ∃ owner repo number,
      extractRef url = .ok (owner, repo, number) ∧
      (pySplitSlash (pyRstripSlash url)).reverse[3]? = some owner ∧
      (pySplitSlash (pyRstripSlash url)).reverse[2]? = some repo ∧
      (pySplitSlash (pyRstripSlash url)).reverse[0]? = some number := by
  obtain ⟨o, ho, ho'⟩ := pyNegIdx_reverse (pySplitSlash (pyRstripSlash url)) 4 (by omega) h4
  obtain ⟨r, hr, hr'⟩ := pyNegIdx_reverse (pySplitSlash (pyRstripSlash url)) 3 (by omega) (by omega)
  obtain ⟨n, hn, hn'⟩ := pyNegIdx_reverse (pySplitSlash (pyRstripSlash url)) 1 (by omega) (by omega)
  refine ⟨o, r, n, ?_, ho', hr', hn'⟩
  simp only [extractRef, ho, hr, hn, bind, Except.bind]

theorem extractRef_short (url : String)
    (h4 : (pySplitSlash (pyRstripSlash url)).length < 4) :
    extractRef url = .error .indexError := by
  simp only [extractRef, pyNegIdx_short _ 4 h4, bind, Except.bind]

theorem gather_pr_info_ok (fo : FetchOracle) (url : String)
    (h4 : 4 ≤ (pySplitSlash (pyRstripSlash url)).length)
    (href : String) (hhref : fo.selfHref = some href) :
    ∃ owner repo number,
      extractRef url = .ok (owner, repo, number) ∧
      gather_pr_info fo (initialState url)
        = .ok ([("pr_info", .info ⟨fo.body.getD "", buildDiffs fo.files⟩)],
            ("https://api.github.com/repos/" ++ owner ++ "/" ++ repo ++ "/pulls/" ++ number)
              :: (href ++ "/files") :: fo.files.map (·.raw_url)) := by
  obtain ⟨o, r, n, hext, -, -, -⟩ := extractRef_ok url h4
  refine ⟨o, r, n, hext, ?_⟩
  have h1 : getItem (initialState url) "pr_url" = .ok (.str url) := rfl
  simp only [gather_pr_info, h1, asStr, hext, hhref, bind, Except.bind]

theorem gather_pr_info_ok_inv (fo : FetchOracle) (s : StateDict)
    (upd : List (String × Val)) (calls : List String)
    (h : gather_pr_info fo s = .ok (upd, calls)) :
    ∃ url owner repo number href,
      getItem s "pr_url" = .ok (.str url) ∧
      extractRef url = .ok (owner, repo, number) ∧
      fo.selfHref = some href ∧
      upd = [("pr_info", .info ⟨fo.body.getD "", buildDiffs fo.files⟩)] ∧
      calls = ("https://api.github.com/repos/" ++ owner ++ "/" ++ repo ++ "/pulls/" ++ number)
        :: (href ++ "/files") :: fo.files.map (·.raw_url) := by
  unfold gather_pr_info at h
  simp only [bind, Except.bind] at h
  split at h
  · exact absurd h (by simp)
  · rename_i urlV hurl
    split at h
    · exact absurd h (by simp)
    · rename_i url hstr
      split at h
      · exact absurd h (by simp)
      · rename_i trip hext
        obtain ⟨o, r, n⟩ := trip
        split at h
        · exact absurd h (by simp)
        · rename_i href hhref
          rw [Except.ok.injEq, Prod.mk.injEq] at h
          refine ⟨url, o, r, n, href, ?_, hext, hhref, h.1.symm, h.2.symm⟩
          cases urlV with
          | str t =>
            obtain rfl : t = url := by
              simpa [asStr, Except.ok.injEq] using hstr
            exact hurl
          | info p => simp [asStr] at hstr

/-! ## Lemmas about the analysis stages -/

theorem contextualize_info_ok (lo : LLMOracle) (s : StateDict) (pi : Val)
    (hpi : getItem s "pr_info" = .ok pi) :
    contextualize_info lo s
      = .ok ([("context", .str (tryLLM lo (contextReq pi)))], []) := by
  simp only [contextualize_info, hpi, bind, Except.bind]

theorem extract_features_ok (lo : LLMOracle) (s : StateDict) (pi c : Val)
    (hpi : getItem s "pr_info" = .ok pi) (hc : getItem s "context" = .ok c) :
    extract_features lo s
      = .ok ([("features", .str (tryLLM lo (featuresReq pi c)))], []) := by
  simp only [extract_features, hpi, hc, bind, Except.bind]

theorem create_expert_checklist_ok (lo : LLMOracle) (s : StateDict) (pi c ft : Val)
    (hpi : getItem s "pr_info" = .ok pi) (hc : getItem s "context" = .ok c)
    (hft : getItem s "features" = .ok ft) :
    create_expert_checklist lo s
      = .ok ([("team_review", .str (tryLLM lo (checklistReq pi c ft)))], []) := by
  simp only [create_expert_checklist, hpi, hc, hft, bind, Except.bind]

theorem final_review_ok (lo : LLMOracle) (s : StateDict) :
    final_review lo s
      = .ok ([("final report", .str (tryLLM lo (finalReq s)))], []) := rfl

theorem contextualize_info_ok_inv (lo : LLMOracle) (s : StateDict)
    (upd : List (String × Val)) (cs : List String)
    (h : contextualize_info lo s = .ok (upd, cs)) :
    ∃ pi, getItem s "pr_info" = .ok pi ∧
      upd = [("context", .str (tryLLM lo (contextReq pi)))] ∧ cs = [] := by
  unfold contextualize_info at h
  simp only [bind, Except.bind] at h
  split at h
  · exact absurd h (by simp)
  · rename_i pi hpi
    rw [Except.ok.injEq, Prod.mk.injEq] at h
    exact ⟨pi, hpi, h.1.symm, h.2.symm⟩

theorem extract_features_ok_inv (lo : LLMOracle) (s : StateDict)
    (upd : List (String × Val)) (cs : List String)
    (h : extract_features lo s = .ok (upd, cs)) :
    ∃ pi c, getItem s "pr_info" = .ok pi ∧ getItem s "context" = .ok c ∧
      upd = [("features", .str (tryLLM lo (featuresReq pi c)))] ∧ cs = [] := by
  unfold extract_features at h
  simp only [bind, Except.bind] at h
  split at h
  · exact absurd h (by simp)
  · rename_i pi hpi
    split at h
    · exact absurd h (by simp)
    · rename_i c hc
      rw [Except.ok.injEq, Prod.mk.injEq] at h
      exact ⟨pi, c, hpi, hc, h.1.symm, h.2.symm⟩

theorem create_expert_checklist_ok_inv (lo : LLMOracle) (s : StateDict)
    (upd : List (String × Val)) (cs : List String)
    (h : create_expert_checklist lo s = .ok (upd, cs)) :
    ∃ pi c ft, getItem s "pr_info" = .ok pi ∧ getItem s "context" = .ok c ∧
      getItem s "features" = .ok ft ∧
      upd = [("team_review", .str (tryLLM lo (checklistReq pi c ft)))] ∧ cs = [] := by
  unfold create_expert_checklist at h
  simp only [bind, Except.bind] at h
  split at h
  · exact absurd h (by simp)
  · rename_i pi hpi
    split at h
    · exact absurd h (by simp)
    · rename_i c hc
      split at h
      · exact absurd h (by simp)
      · rename_i ft hft
        rw [Except.ok.injEq, Prod.mk.injEq] at h
        exact ⟨pi, c, ft, hpi, hc, hft, h.1.symm, h.2.symm⟩

theorem final_review_ok_inv (lo : LLMOracle) (s : StateDict)
    (upd : List (String × Val)) (cs : List String)
    (h : final_review lo s = .ok (upd, cs)) :
    upd = [("final report", .str (tryLLM lo (finalReq s)))] ∧ cs = [] := by
  simp only [final_review, Except.ok.injEq, Prod.mk.injEq] at h
  exact ⟨h.1.symm, h.2.symm⟩

/-! ## Lemmas about the runner -/

theorem runFrom_step (fo : FetchOracle) (lo : LLMOracle) (fuel : Nat)
    (cur next : String) (fn : StageFn) (s : StateDict) (tr cs : List String)
    (upd : List (String × Val)) (sc : List String)
    (hn : (nodes fo lo).lookup cur = some fn)
    (hf : fn s = .ok (upd, sc))
    (he : edges.lookup cur = some next) (hne : next ≠ "__end__") :
    runFrom fo lo (fuel + 1) cur s tr cs
      = runFrom fo lo fuel next (mergeUpdate s upd) (tr ++ [cur]) (cs ++ sc) := by
  conv_lhs => unfold runFrom
  simp only [hn, hf, he]
  rw [if_neg hne]

theorem runFrom_last (fo : FetchOracle) (lo : LLMOracle) (fuel : Nat)
    (cur : String) (fn : StageFn) (s : StateDict) (tr cs : List String)
    (upd : List (String × Val)) (sc : List String)
    (hn : (nodes fo lo).lookup cur = some fn)
    (hf : fn s = .ok (upd, sc))
    (he : edges.lookup cur = some "__end__") :
    runFrom fo lo (fuel + 1) cur s tr cs
      = .ok (mergeUpdate s upd, tr ++ [cur], cs ++ sc) := by
  unfold runFrom
  simp only [hn, hf, he]
  simp

/-- The five node names in graph order: the entry point followed by the
target of each edge up to `END`. -/
def stageOrder : List String :=
  ["gather_pr_info", "contextualize_info", "extract_features",
   "create_expert_checklist", "final_review"]

theorem invoke_ok_of_gather (fo : FetchOracle) (lo : LLMOracle) (url : String)
    (v : Val) (c0 : List String)
    (hg : gather_pr_info fo (initialState url) = .ok ([("pr_info", v)], c0)) :
    ∃ s, invoke fo lo url = .ok (s, stageOrder, c0) := by
  have m1 : mergeUpdate (initialState url) [("pr_info", v)]
      = [("pr_url", .str url), ("pr_info", v), ("context", .str ""),
         ("features", .str ""), ("team_review", .str ""), ("final_report", .str "")] := rfl
  set s1 : StateDict :=
    [("pr_url", .str url), ("pr_info", v), ("context", .str ""),
     ("features", .str ""), ("team_review", .str ""), ("final_report", .str "")] with hs1
  have hctx := contextualize_info_ok lo s1 v rfl
  set r1 : Val := .str (tryLLM lo (contextReq v)) with hr1
  have m2 : mergeUpdate s1 [("context", r1)]
      = [("pr_url", .str url), ("pr_info", v), ("context", r1),
         ("features", .str ""), ("team_review", .str ""), ("final_report", .str "")] := rfl
  set s2 : StateDict :=
    [("pr_url", .str url), ("pr_info", v), ("context", r1),
     ("features", .str ""), ("team_review", .str ""), ("final_report", .str "")] with hs2
  have hfea := extract_features_ok lo s2 v r1 rfl rfl
  set r2 : Val := .str (tryLLM lo (featuresReq v r1)) with hr2
  have m3 : mergeUpdate s2 [("features", r2)]
      = [("pr_url", .str url), ("pr_info", v), ("context", r1),
         ("features", r2), ("team_review", .str ""), ("final_report", .str "")] := rfl
  set s3 : StateDict :=
    [("pr_url", .str url), ("pr_info", v), ("context", r1),
     ("features", r2), ("team_review", .str ""), ("final_report", .str "")] with hs3
  have hchk := create_expert_checklist_ok lo s3 v r1 r2 rfl rfl rfl
  set r3 : Val := .str (tryLLM lo (checklistReq v r1 r2)) with hr3
  have m4 : mergeUpdate s3 [("team_review", r3)]
      = [("pr_url", .str url), ("pr_info", v), ("context", r1),
         ("features", r2), ("team_review", r3), ("final_report", .str "")] := rfl
  set s4 : StateDict :=
    [("pr_url", .str url), ("pr_info", v), ("context", r1),
     ("features", r2), ("team_review", r3), ("final_report", .str "")] with hs4
  have hfin := final_review_ok lo s4
  set r4 : Val := .str (tryLLM lo (finalReq s4)) with hr4
  have m5 : mergeUpdate s4 [("final report", r4)]
      = [("pr_url", .str url), ("pr_info", v), ("context", r1),
         ("features", r2), ("team_review", r3), ("final_report", .str ""),
         ("final report", r4)] := rfl
  refine ⟨[("pr_url", .str url), ("pr_info", v), ("context", r1),
    ("features", r2), ("team_review", r3), ("final_report", .str ""),
    ("final report", r4)], ?_⟩
  show runFrom fo lo 6 "gather_pr_info" (initialState url) [] [] = _
  rw [runFrom_step fo lo 5 "gather_pr_info" "contextualize_info" (gather_pr_info fo)
      (initialState url) [] [] _ _ rfl hg rfl (by decide), m1]
  rw [runFrom_step fo lo 4 "contextualize_info" "extract_features" (contextualize_info lo)
      s1 _ _ _ _ rfl hctx rfl (by decide), m2]
  rw [runFrom_step fo lo 3 "extract_features" "create_expert_checklist" (extract_features lo)
      s2 _ _ _ _ rfl hfea rfl (by decide), m3]
  rw [runFrom_step fo lo 2 "create_expert_checklist" "final_review" (create_expert_checklist lo)
      s3 _ _ _ _ rfl hchk rfl (by decide), m4]
  rw [runFrom_last fo lo 1 "final_review" (final_review lo) s4 _ _ _ _ rfl hfin rfl, m5]
  simp only [List.append_nil, List.nil_append, List.cons_append]
  rfl

/-! ## Concrete oracles used by the witnesses -/

/-- A generation oracle whose every call raises. -/
def alwaysFail : LLMOracle := fun _ => .error "generation failed"

/-- A generation oracle that always succeeds, echoing the stage tag with
surrounding whitespace. -/
def echoLLM : LLMOracle := fun req => .ok ("  reply to " ++ req.stage ++ "  ")

/-- A fetch oracle with no changed files. -/
def noFilesFetch : FetchOracle :=
  { body := none
    selfHref := some "https://api.github.com/repos/o/r/pulls/1"
    files := [] }

/-- A fetch oracle with one changed text file. -/
def oneFileFetch : FetchOracle :=
  { body := some "one file"
    selfHref := some "https://api.github.com/repos/o/r/pulls/2"
    files := [⟨"b.py", some "@@ patch b", "https://raw/bb", "print(2)", "text/plain"⟩] }

/-- A fetch oracle with one text file and one binary file. -/
def demoFetch : FetchOracle :=
  { body := some "demo description"
    selfHref := some "https://api.github.com/repos/o/r/pulls/9"
    files := [⟨"a.py", some "@@ patch a", "https://raw/a", "print(1)", "text/x-python"⟩,
              ⟨"img.png", none, "https://raw/b", "PNG", "image/png"⟩] }

/-! ## Spec-side descriptions used to state the ordering claim -/

/-- The `PRState` schema fields (`app.py` lines 47-53). -/
def schemaFields : List String :=
  ["pr_url", "pr_info", "context", "features", "team_review", "final_report"]

/-- Modelled from the spec: the state fields each stage's prompt construction
consumes (spec section 4.3) — the gather output plus every earlier report. -/
def declaredInputs : String → List String
  | "contextualize_info" => ["pr_info"]
  | "extract_features" => ["pr_info", "context"]
  | "create_expert_checklist" => ["pr_info", "context", "features"]
  | "final_review" => ["pr_info", "context", "features", "team_review"]
  | _ => []

/-- The stage designated to populate each pipeline-state field; fields of the
initial state (such as `pr_url`) have none. -/
def producerStage : String → Option String
  | "pr_info" => some "gather_pr_info"
  | "context" => some "contextualize_info"
  | "features" => some "extract_features"
  | "team_review" => some "create_expert_checklist"
  | "final_report" => some "final_review"
  | _ => none

/-- Check over a trace: every declared input of every invoked stage is
populated by a strictly earlier entry of the trace (fields with no producer
stage are initial-state fields, populated from the start). -/
def inputsProducedEarlier (trace : List String) : Bool :=
  (List.range trace.length).all fun i =>
    (declaredInputs (trace.getD i "")).all fun fld =>
      match producerStage fld with
      | none => true
      | some p => (List.range i).any fun j => trace.getD j "" == p

/-! ## The claims -/

/-- C1: if every text-generation call fails, the spec claims the final state
has all four report fields equal to `"Error generating context."` and both
artifacts are still written.  Evaluating the pipeline shows: `context`,
`features` and `team_review` do equal the placeholder and both artifacts are
written, but the placeholder of the final stage is stored under the stray key
`"final report"`, so the schema field `final_report` keeps its initial `""`
and the plain-text artifact is written with empty content. -/
theorem c1_generation_always_fails_eval :
    ∃ s, runScript noFilesFetch alwaysFail "https://github.com/o/r/pull/1"
        = ([.jsonDump "result.json" s, .text "final_report.md" ""], none) ∧
      s.lookup "context" = some (.str placeholder) ∧
      s.lookup "features" = some (.str placeholder) ∧
      s.lookup "team_review" = some (.str placeholder) ∧
      s.lookup "final_report" = some (.str "") ∧
      s.lookup "final report" = some (.str placeholder) :=
  ⟨_, rfl, rfl, rfl, rfl, rfl, rfl⟩

/-- C2: a file entry returned by the content fetcher is included in
`ChangeInfo.diffs` iff its detected content type contains `"text"` or
contains `"json"` and its filename does not end in `".excalidraw"`. -/
theorem c2_diffs_inclusion_iff (files : List FileEntry) (f : FileEntry)
    (hf : f ∈ files) (hnd : (files.map (·.filename)).Nodup) :
    ((buildDiffs files).lookup f.filename).isSome = true ↔
      ((pyContains f.contentType "text" || pyContains f.contentType "json")
        && !pyEndsWith f.filename ".excalidraw") = true := by
  rw [buildDiffs_lookup files f hf hnd]
  cases h1 : pyContains f.contentType "text" <;>
    cases h2 : pyContains f.contentType "json" <;>
      cases h3 : pyEndsWith f.filename ".excalidraw" <;>
        simp [skipFile, h1, h2, h3]

theorem c2_diffs_inclusion_iff_witness :
    (((buildDiffs demoFetch.files).lookup "a.py").isSome = true ↔
      ((pyContains "text/x-python" "text" || pyContains "text/x-python" "json")
        && !pyEndsWith "a.py" ".excalidraw") = true) ∧
    (((buildDiffs demoFetch.files).lookup "img.png").isSome = true ↔
      ((pyContains "image/png" "text" || pyContains "image/png" "json")
        && !pyEndsWith "img.png" ".excalidraw") = true) :=
  ⟨c2_diffs_inclusion_iff demoFetch.files
      ⟨"a.py", some "@@ patch a", "https://raw/a", "print(1)", "text/x-python"⟩
      (by decide) (by decide),
   c2_diffs_inclusion_iff demoFetch.files
      ⟨"img.png", none, "https://raw/b", "PNG", "image/png"⟩
      (by decide) (by decide)⟩

/-- C3: whenever the trailing-slash-stripped reference splits on `'/'` into
at least four segments, the gather stage extracts owner = 4th-from-last,
repo = 3rd-from-last and number = last segment. -/
theorem c3_ref_extraction_segments (url : String)
    (h4 : 4 ≤ (pySplitSlash (pyRstripSlash url)).length) :
    ∃ owner repo number,
      extractRef url = .ok (owner, repo, number) ∧
      (pySplitSlash (pyRstripSlash url)).reverse[3]? = some owner ∧
      (pySplitSlash (pyRstripSlash url)).reverse[2]? = some repo ∧
      (pySplitSlash (pyRstripSlash url)).reverse[0]? = some number :=
  extractRef_ok url h4

theorem c3_ref_extraction_segments_witness :
    4 ≤ (pySplitSlash (pyRstripSlash "https://github.com/ai-cfia/fertiscan-backend/pull/106")).length ∧
    (∃ owner repo number,
      extractRef "https://github.com/ai-cfia/fertiscan-backend/pull/106" = .ok (owner, repo, number) ∧
      (pySplitSlash (pyRstripSlash "https://github.com/ai-cfia/fertiscan-backend/pull/106")).reverse[3]? = some owner ∧
      (pySplitSlash (pyRstripSlash "https://github.com/ai-cfia/fertiscan-backend/pull/106")).reverse[2]? = some repo ∧
      (pySplitSlash (pyRstripSlash "https://github.com/ai-cfia/fertiscan-backend/pull/106")).reverse[0]? = some number) :=
  ⟨by decide, c3_ref_extraction_segments _ (by decide)⟩

/-- C4: a reference with fewer than four path segments raises `IndexError`
inside the owner/repo/number decomposition, the gather stage (and hence the
run) aborts, and neither output artifact is written. -/
theorem c4_malformed_ref_aborts (fo : FetchOracle) (lo : LLMOracle) (url : String)
    (h : (pySplitSlash (pyRstripSlash url)).length < 4) :
    extractRef url = .error .indexError ∧
    gather_pr_info fo (initialState url) = .error .indexError ∧
    runScript fo lo url = ([], some .indexError) := by
  have he := extractRef_short url h
  have h1 : getItem (initialState url) "pr_url" = .ok (.str url) := rfl
  have hg : gather_pr_info fo (initialState url) = .error .indexError := by
    simp only [gather_pr_info, h1, asStr, he, bind, Except.bind]
  have hn : List.lookup "gather_pr_info" (nodes fo lo) = some (gather_pr_info fo) := rfl
  have hi : invoke fo lo url = .error .indexError := by
    show runFrom fo lo 6 "gather_pr_info" (initialState url) [] [] = _
    conv_lhs => unfold runFrom
    simp only [hn, hg]
  refine ⟨he, hg, ?_⟩
  simp only [runScript, hi]

theorem c4_malformed_ref_aborts_witness :
    (pySplitSlash (pyRstripSlash "not-a-valid-url")).length < 4 ∧
    (extractRef "not-a-valid-url" = .error .indexError ∧
     gather_pr_info noFilesFetch (initialState "not-a-valid-url") = .error .indexError ∧
     runScript noFilesFetch alwaysFail "not-a-valid-url" = ([], some .indexError)) :=
  ⟨by decide, c4_malformed_ref_aborts noFilesFetch alwaysFail _ (by decide)⟩

/-- C5: the spec claims every failing analysis stage sets its own report
field to the placeholder and execution continues through all stages.
Evaluating a run in which every generation call fails: all five stages do
run to completion and the three middle stages set their fields to the
placeholder, but the final stage stores its placeholder under the stray key
`"final report"`, leaving the schema field `final_report` at its initial
`""`. -/
theorem c5_degrade_and_continue_eval :
    ∃ s calls,
      invoke oneFileFetch alwaysFail "https://github.com/o/r/pull/2"
        = .ok (s, stageOrder, calls) ∧
      s.lookup "context" = some (.str placeholder) ∧
      s.lookup "features" = some (.str placeholder) ∧
      s.lookup "team_review" = some (.str placeholder) ∧
      s.lookup "final report" = some (.str placeholder) ∧
      s.lookup "final_report" = some (.str "") :=
  ⟨_, _, rfl, rfl, rfl, rfl, rfl, rfl⟩

/-- C6: whenever the gather stage can succeed (a well-formed reference and a
metadata response carrying a files link), the run invokes exactly the five
stages in the fixed order gather → contextualize → extract features →
expert checklist → final review, each exactly once, and every declared
input field of each stage is populated by a strictly earlier stage. -/
theorem c6_fixed_stage_order (fo : FetchOracle) (lo : LLMOracle) (url : String)
    (h4 : 4 ≤ (pySplitSlash (pyRstripSlash url)).length)
    (href : String) (hhref : fo.selfHref = some href) :
    (∃ s calls, invoke fo lo url = .ok (s, stageOrder, calls)) ∧
    stageOrder.Nodup ∧ inputsProducedEarlier stageOrder = true := by
  obtain ⟨o, r, n, -, hg⟩ := gather_pr_info_ok fo url h4 href hhref
  obtain ⟨s, hs⟩ := invoke_ok_of_gather fo lo url _ _ hg
  exact ⟨⟨s, _, hs⟩, by decide, by decide⟩

theorem c6_fixed_stage_order_witness :
    (∃ s calls, invoke demoFetch echoLLM "https://github.com/o/r/pull/9"
        = .ok (s, stageOrder, calls)) ∧
    stageOrder.Nodup ∧ inputsProducedEarlier stageOrder = true :=
  c6_fixed_stage_order demoFetch echoLLM _ (by decide) _ rfl

/-- C7: every successful gather run makes exactly `2 + n` fetcher calls when
the file listing holds `n` files: one for the change metadata, one for the
file listing, and one per listed file for its raw content. -/
theorem c7_gather_call_count (fo : FetchOracle) (s : StateDict)
    (upd : List (String × Val)) (calls : List String)
    (h : gather_pr_info fo s = .ok (upd, calls)) :
    calls.length = 2 + fo.files.length ∧
    ∃ metaCall listCall, calls = metaCall :: listCall :: fo.files.map (·.raw_url) := by
  obtain ⟨url, o, r, n, href, -, -, -, -, hcalls⟩ :=
    gather_pr_info_ok_inv fo s upd calls h
  subst hcalls
  refine ⟨?_, _, _, rfl⟩
  simp only [List.length_cons, List.length_map]
  omega

theorem c7_gather_call_count_witness :
    ∃ upd calls,
      gather_pr_info demoFetch (initialState "https://github.com/o/r/pull/9")
        = .ok (upd, calls) ∧
      calls.length = 2 + demoFetch.files.length :=
  ⟨_, _, rfl,
    (c7_gather_call_count demoFetch
      (initialState "https://github.com/o/r/pull/9") _ _ rfl).1⟩

/-- C8: the pipeline is deterministic — two runs from identical initial
states with identical fetcher responses and identical generation responses
produce identical outcomes. -/
theorem c8_deterministic_runs (fo fo' : FetchOracle) (lo lo' : LLMOracle)
    (url url' : String) (hfo : fo = fo') (hlo : lo = lo')
    (hinit : initialState url = initialState url') :
    invoke fo lo url = invoke fo' lo' url' := by
  subst hfo
  subst hlo
  have hu : url = url' := by
    have hl := congrArg (fun d => d.lookup "pr_url") hinit
    simpa [initialState, List.lookup] using hl
  subst hu
  rfl

theorem c8_deterministic_runs_witness :
    invoke demoFetch alwaysFail "https://github.com/o/r/pull/9"
      = invoke demoFetch alwaysFail "https://github.com/o/r/pull/9" :=
  c8_deterministic_runs demoFetch demoFetch alwaysFail alwaysFail _ _ rfl rfl rfl

/-- C9: when a generation call succeeds with text `t`, the stage stores
exactly `t` with surrounding whitespace trimmed and no other processing —
though the final stage stores it under the stray key `"final report"`
rather than the schema field `final_report`. -/
theorem c9_success_stores_trimmed (lo : LLMOracle) (s : StateDict) (t : String) :
    (∀ pi, getItem s "pr_info" = .ok pi → lo (contextReq pi) = .ok t →
      contextualize_info lo s = .ok ([("context", .str (pyStrip t))], [])) ∧
    (∀ pi c, getItem s "pr_info" = .ok pi → getItem s "context" = .ok c →
      lo (featuresReq pi c) = .ok t →
      extract_features lo s = .ok ([("features", .str (pyStrip t))], [])) ∧
    (∀ pi c ft, getItem s "pr_info" = .ok pi → getItem s "context" = .ok c →
      getItem s "features" = .ok ft → lo (checklistReq pi c ft) = .ok t →
      create_expert_checklist lo s = .ok ([("team_review", .str (pyStrip t))], [])) ∧
    (lo (finalReq s) = .ok t →
      final_review lo s = .ok ([("final report", .str (pyStrip t))], [])) := by
  refine ⟨?_, ?_, ?_, ?_⟩
  · intro pi hpi hok
    rw [contextualize_info_ok lo s pi hpi]
    simp [tryLLM, hok]
  · intro pi c hpi hc hok
    rw [extract_features_ok lo s pi c hpi hc]
    simp [tryLLM, hok]
  · intro pi c ft hpi hc hft hok
    rw [create_expert_checklist_ok lo s pi c ft hpi hc hft]
    simp [tryLLM, hok]
  · intro hok
    rw [final_review_ok lo s]
    simp [tryLLM, hok]

theorem c9_success_stores_trimmed_witness :
    contextualize_info echoLLM (initialState "u")
      = .ok ([("context", .str (pyStrip "  reply to contextualize_info  "))], []) ∧
    final_review echoLLM (initialState "u")
      = .ok ([("final report", .str (pyStrip "  reply to final_review  "))], []) :=
  ⟨(c9_success_stores_trimmed echoLLM (initialState "u")
      "  reply to contextualize_info  ").1 (.str "") rfl rfl,
   (c9_success_stores_trimmed echoLLM (initialState "u")
      "  reply to final_review  ").2.2.2 rfl⟩

/-- C10: every stage returns a partial update with exactly one key, and the
merge leaves every schema field other than the stage's designated output
field unchanged (the final stage in fact leaves every schema field unchanged,
since its one key is the stray `"final report"`). -/
theorem c10_single_key_frame (fo : FetchOracle) (lo : LLMOracle) (s : StateDict)
    (upd : List (String × Val)) (cs : List String) :
    (gather_pr_info fo s = .ok (upd, cs) → upd.length = 1 ∧
      ∀ k, k ∈ schemaFields → k ≠ "pr_info" →
        (mergeUpdate s upd).lookup k = s.lookup k) ∧
    (contextualize_info lo s = .ok (upd, cs) → upd.length = 1 ∧
      ∀ k, k ∈ schemaFields → k ≠ "context" →
        (mergeUpdate s upd).lookup k = s.lookup k) ∧
    (extract_features lo s = .ok (upd, cs) → upd.length = 1 ∧
      ∀ k, k ∈ schemaFields → k ≠ "features" →
        (mergeUpdate s upd).lookup k = s.lookup k) ∧
    (create_expert_checklist lo s = .ok (upd, cs) → upd.length = 1 ∧
      ∀ k, k ∈ schemaFields → k ≠ "team_review" →
        (mergeUpdate s upd).lookup k = s.lookup k) ∧
    (final_review lo s = .ok (upd, cs) → upd.length = 1 ∧
      ∀ k, k ∈ schemaFields → k ≠ "final_report" →
        (mergeUpdate s upd).lookup k = s.lookup k) := by
  refine ⟨?_, ?_, ?_, ?_, ?_⟩
  · intro h
    obtain ⟨url, o, r, n, href, -, -, -, hupd, -⟩ :=
      gather_pr_info_ok_inv fo s upd cs h
    subst hupd
    refine ⟨rfl, fun k _ hne => ?_⟩
    rw [mergeUpdate_single]
    exact lookup_dictUpdate_ne s "pr_info" k _ hne
  · intro h
    obtain ⟨pi, -, hupd, -⟩ := contextualize_info_ok_inv lo s upd cs h
    subst hupd
    refine ⟨rfl, fun k _ hne => ?_⟩
    rw [mergeUpdate_single]
    exact lookup_dictUpdate_ne s "context" k _ hne
  · intro h
    obtain ⟨pi, c, -, -, hupd, -⟩ := extract_features_ok_inv lo s upd cs h
    subst hupd
    refine ⟨rfl, fun k _ hne => ?_⟩
    rw [mergeUpdate_single]
    exact lookup_dictUpdate_ne s "features" k _ hne
  · intro h
    obtain ⟨pi, c, ft, -, -, -, hupd, -⟩ := create_expert_checklist_ok_inv lo s upd cs h
    subst hupd
    refine ⟨rfl, fun k _ hne => ?_⟩
    rw [mergeUpdate_single]
    exact lookup_dictUpdate_ne s "team_review" k _ hne
  · intro h
    obtain ⟨hupd, -⟩ := final_review_ok_inv lo s upd cs h
    subst hupd
    refine ⟨rfl, fun k hk _ => ?_⟩
    rw [mergeUpdate_single]
    refine lookup_dictUpdate_ne s "final report" k _ ?_
    rcases (by simpa [schemaFields] using hk :
        k = "pr_url" ∨ k = "pr_info" ∨ k = "context" ∨ k = "features"
          ∨ k = "team_review" ∨ k = "final_report") with
      rfl | rfl | rfl | rfl | rfl | rfl <;> decide

theorem c10_single_key_frame_witness :
    ([("context", Val.str placeholder)] : List (String × Val)).length = 1 ∧
    ∀ k, k ∈ schemaFields → k ≠ "context" →
      (mergeUpdate (initialState "u2") [("context", .str placeholder)]).lookup k
        = (initialState "u2").lookup k :=
  (c10_single_key_frame noFilesFetch alwaysFail (initialState "u2")
    [("context", .str placeholder)] []).2.1 rfl

end JamesReviews
